import Mathlib

/-!
# Verification of the bounded-interval algebra (`src/interval.rs`)

Shallow embedding of the `Boundary` / `Interval` types and their operations
from `src/interval.rs`, together with theorems settling the specification
claims about them.

Conventions of the embedding:
* The Rust point type `T : PartialOrd + PartialEq + Clone` is modelled as a
  type `α` with a `LinearOrder` instance ("consistently ordered point type").
* The Rust `Deref` impl that projects a `Boundary` to its point is modelled
  by `Boundary.point`.
* The Rust struct field `end` is called `stop` here (`end` is reserved in
  Lean); everything else keeps the source's names.
* The four operations whose bodies are `unimplemented!()` in the source
  (`union`, `minus`, `connect`, `normalize`) are modelled in an `Except`
  monad whose error value marks the panic the Rust macro raises.
-/

namespace Rampeditor

/-- Determines the type of an interval's boundary: either the boundary
includes its point (`Include`) or excludes it (`Exclude`).  Mirrors
`enum Boundary<T>` from the source. -/
inductive Boundary (α : Type) where
  | Include (point : α)
  | Exclude (point : α)
deriving DecidableEq

namespace Boundary

variable {α : Type}

/-- The point carried by a boundary; mirrors the `Deref` impl of the source
(`**self` in the Rust code is `self.point` here). -/
def point : Boundary α → α
  | .Include p => p
  | .Exclude p => p

/-- Mirrors `Boundary::is_closed`: whether the boundary includes its point. -/
def is_closed : Boundary α → Bool
  | .Include _ => true
  | .Exclude _ => false

/-- Mirrors `Boundary::is_open`: whether the boundary excludes its point. -/
def is_open (b : Boundary α) : Bool :=
  !b.is_closed

/-- Mirrors `Boundary::intersect_or_least`: the intersect of the given
boundaries, or the lowest one if they are not at the same point. -/
def intersect_or_least [LinearOrder α] (b other : Boundary α) : Boundary α :=
  if b.point = other.point then
    if b.is_closed && other.is_closed then b else Boundary.Exclude b.point
  else if b.point < other.point then b
  else other

/-- Mirrors `Boundary::intersect_or_greatest`: the intersect of the given
boundaries, or the greatest one if they are not at the same point. -/
def intersect_or_greatest [LinearOrder α] (b other : Boundary α) : Boundary α :=
  if b.point = other.point then
    if b.is_closed && other.is_closed then b else Boundary.Exclude b.point
  else if b.point > other.point then b
  else other

/-- Mirrors `Boundary::union_or_least`: the union of the given boundaries,
or the lowest one if they are not at the same point. -/
def union_or_least [LinearOrder α] (b other : Boundary α) : Boundary α :=
  if b.point = other.point then
    if b.is_open && other.is_open then b else Boundary.Include b.point
  else if b.point < other.point then b
  else other

/-- Mirrors `Boundary::union_or_greatest`: the union of the given boundaries,
or the greatest one if they are not at the same point. -/
def union_or_greatest [LinearOrder α] (b other : Boundary α) : Boundary α :=
  if b.point = other.point then
    if b.is_open && other.is_open then b else Boundary.Include b.point
  else if b.point > other.point then b
  else other

/-- The ordering the Rust `#[derive(PartialOrd, Ord)]` attribute produces for
`Boundary`: variants compare by declaration order first (`Include` before
`Exclude`), and two values of the same variant compare by their payload. -/
def cmp [LinearOrder α] : Boundary α → Boundary α → Ordering
  | .Include x, .Include y => compare x y
  | .Include _, .Exclude _ => .lt
  | .Exclude _, .Include _ => .gt
  | .Exclude x, .Exclude y => compare x y

end Boundary

/-- Mirrors `struct Interval<T>`: a contiguous range of the type `α`, which
may include or exclude either boundary.  The Rust field `end` is called
`stop` here. -/
structure Interval (α : Type) where
  /-- The start of the range (Rust field `start`). -/
  start : Boundary α
  /-- The end of the range (Rust field `end`). -/
  stop : Boundary α
deriving DecidableEq

namespace Interval

variable {α : Type}

/-- Mirrors `Interval::new`: creates a new interval from the given
boundaries; if the arguments are out of order they are swapped; if the end
boundary is omitted the start boundary is duplicated. -/
def new [LinearOrder α] (start : Boundary α) (e : Option (Boundary α)) :
    Interval α :=
  match e with
  | some end_bound =>
      if end_bound.point < start.point then ⟨end_bound, start⟩
      else ⟨start, end_bound⟩
  | none => ⟨start, start⟩

/-- Mirrors `Interval::open` (named `openInt` because `open` is reserved in
Lean). -/
def openInt [LinearOrder α] (start e : α) : Interval α :=
  Interval.new (Boundary.Exclude start) (some (Boundary.Exclude e))

/-- Mirrors `Interval::closed`. -/
def closed [LinearOrder α] (start e : α) : Interval α :=
  Interval.new (Boundary.Include start) (some (Boundary.Include e))

/-- Mirrors `Interval::left_open`. -/
def left_open [LinearOrder α] (start e : α) : Interval α :=
  Interval.new (Boundary.Exclude start) (some (Boundary.Include e))

/-- Mirrors `Interval::right_open`. -/
def right_open [LinearOrder α] (start e : α) : Interval α :=
  Interval.new (Boundary.Include start) (some (Boundary.Exclude e))

/-- Mirrors `Interval::left_point`: the leftmost boundary point. -/
def left_point (i : Interval α) : α :=
  i.start.point

/-- Mirrors `Interval::right_point`: the rightmost boundary point. -/
def right_point (i : Interval α) : α :=
  i.stop.point

/-- Mirrors `Interval::left_bound`: the left boundary. -/
def left_bound (i : Interval α) : Boundary α :=
  i.start

/-- Mirrors `Interval::right_bound`: the right boundary. -/
def right_bound (i : Interval α) : Boundary α :=
  i.stop

/-- Mirrors `Interval::is_empty`: whether the interval is empty. -/
def is_empty [LinearOrder α] (i : Interval α) : Bool :=
  decide (i.left_bound = i.right_bound) && i.left_bound.is_open

/-- Mirrors `Interval::contains`: whether the given point is included in the
interval. -/
def contains [LinearOrder α] (i : Interval α) (p : α) : Bool :=
  (decide (p > i.left_point) && decide (p < i.right_point))
    || (decide (p = i.left_point) && i.left_bound.is_closed)
    || (decide (p = i.right_point) && i.right_bound.is_closed)

/-- The body of `Interval::intersect` after the two operands have been
labelled `a` (lesser left point) and `b` (the other): the disjoint, touching
and overlapping cases of the source. -/
def intersect_sorted [LinearOrder α] (a b : Interval α) :
    Option (Interval α) :=
  if a.right_point < b.left_point then
    none
  else if a.right_point = b.left_point then
    if a.right_bound.is_closed && b.left_bound.is_closed then
      some (Interval.new (Boundary.Include a.right_point) none)
    else
      none
  else
    some (Interval.new (a.left_bound.intersect_or_greatest b.left_bound)
      (some (a.right_bound.intersect_or_least b.right_bound)))

/-- Mirrors `Interval::intersect`: the set intersection of the interval with
the given interval, or `none` if the intervals do not overlap. -/
def intersect [LinearOrder α] (i other : Interval α) : Option (Interval α) :=
  if i.is_empty || other.is_empty then
    none
  else if i = other then
    some i
  else if i.left_point ≤ other.left_point then
    intersect_sorted i other
  else
    intersect_sorted other i

end Interval

/-- The fatal error the Rust `unimplemented!()` macro raises when the body of
an unfinished operation runs. -/
inductive RustPanic where
  | unimplemented
deriving DecidableEq

namespace Interval

variable {α : Type}

/-- Mirrors `Interval::union`, whose body in the source is
`unimplemented!()`: calling it panics on every input. -/
def union (_i _other : Interval α) : Except RustPanic (Option (Interval α)) :=
  .error .unimplemented

/-- Mirrors `Interval::minus`, whose body in the source is
`unimplemented!()`: calling it panics on every input. -/
def minus (_i _other : Interval α) : Except RustPanic (Option (Interval α)) :=
  .error .unimplemented

/-- Mirrors `Interval::connect`, whose body in the source is
`unimplemented!()`: calling it panics on every input. -/
def connect (_i _other : Interval α) :
    Except RustPanic (Option (Interval α)) :=
  .error .unimplemented

/-- Mirrors `Interval::normalize`, whose body in the source is
`unimplemented!()`: calling it panics on every input. -/
def normalize (_l : List (Interval α)) :
    Except RustPanic (List (Interval α)) :=
  .error .unimplemented

end Interval

/-! ## Helper lemmas -/

/-- A closed boundary is an `Include` at its own point. -/
theorem Boundary.eq_Include_of_is_closed {α : Type} {b : Boundary α}
    (h : b.is_closed = true) : b = Boundary.Include b.point := by
  cases b with
  | Include p => rfl
  | Exclude p => exact absurd h (by simp [Boundary.is_closed])

/-- Two boundaries are equal iff their points and tags match. -/
theorem Boundary.eq_iff {α : Type} (b1 b2 : Boundary α) :
    b1 = b2 ↔ b1.point = b2.point ∧ b1.is_closed = b2.is_closed := by
  cases b1 <;> cases b2 <;>
    simp [Boundary.point, Boundary.is_closed]

/-- `intersect_or_least` does not depend on the order of its arguments. -/
theorem Boundary.intersect_or_least_comm {α : Type} [LinearOrder α]
    (b o : Boundary α) :
    b.intersect_or_least o = o.intersect_or_least b := by
  unfold Boundary.intersect_or_least
  rcases lt_trichotomy b.point o.point with h | h | h
  · rw [if_neg h.ne, if_pos h, if_neg h.ne', if_neg (not_lt.mpr h.le)]
  · rw [if_pos h, if_pos h.symm]
    by_cases hc : (b.is_closed && o.is_closed) = true
    · rw [if_pos hc, if_pos (by rw [Bool.and_comm]; exact hc)]
      obtain ⟨hb, ho⟩ := Bool.and_eq_true_iff.mp hc
      rw [Boundary.eq_Include_of_is_closed hb,
        Boundary.eq_Include_of_is_closed ho, h]
    · rw [if_neg hc, if_neg (by rw [Bool.and_comm]; exact hc), h]
  · rw [if_neg h.ne', if_neg (not_lt.mpr h.le), if_neg h.ne, if_pos h]

/-- `intersect_or_greatest` does not depend on the order of its arguments. -/
theorem Boundary.intersect_or_greatest_comm {α : Type} [LinearOrder α]
    (b o : Boundary α) :
    b.intersect_or_greatest o = o.intersect_or_greatest b := by
  unfold Boundary.intersect_or_greatest
  rcases lt_trichotomy b.point o.point with h | h | h
  · rw [if_neg h.ne, if_neg (not_lt.mpr h.le), if_neg h.ne', if_pos h]
  · rw [if_pos h, if_pos h.symm]
    by_cases hc : (b.is_closed && o.is_closed) = true
    · rw [if_pos hc, if_pos (by rw [Bool.and_comm]; exact hc)]
      obtain ⟨hb, ho⟩ := Bool.and_eq_true_iff.mp hc
      rw [Boundary.eq_Include_of_is_closed hb,
        Boundary.eq_Include_of_is_closed ho, h]
    · rw [if_neg hc, if_neg (by rw [Bool.and_comm]; exact hc), h]
  · rw [if_neg h.ne', if_pos h, if_neg h.ne, if_neg (not_lt.mpr h.le)]

/-- An interval whose left point is strictly below its right point is not
empty. -/
theorem Interval.is_empty_eq_false_of_lt {α : Type} [LinearOrder α]
    {i : Interval α} (h : i.left_point < i.right_point) :
    i.is_empty = false := by
  have hne : i.left_bound ≠ i.right_bound := by
    intro he
    exact absurd (congrArg Boundary.point he) h.ne
  simp [Interval.is_empty, hne]

/-- `Interval::new` establishes the ordering invariant on its boundaries. -/
theorem Interval.new_wf {α : Type} [LinearOrder α] (l : Boundary α)
    (e : Option (Boundary α)) :
    (Interval.new l e).left_point ≤ (Interval.new l e).right_point := by
  cases e with
  | none => exact le_refl _
  | some r =>
    by_cases h : r.point < l.point
    · simp only [Interval.new, if_pos h, Interval.left_point,
        Interval.right_point]
      exact h.le
    · simp only [Interval.new, if_neg h, Interval.left_point,
        Interval.right_point]
      exact not_lt.mp h

/-! ## Claim theorems -/

/-- C1: for all boundaries `b1`, `b2` over a consistently ordered point type,
`intersect_or_least` returns the boundary with the lesser point, tag
unchanged, when the points differ; when the points are equal it returns
`Include` at that point iff both inputs are closed, and `Exclude` at that
point otherwise.  `intersect_or_greatest` obeys the same equal-point rule but
returns the boundary with the greater point when the points differ. -/
theorem boundary_intersect_combinators {α : Type} [LinearOrder α]
    (b1 b2 : Boundary α) :
    (b1.point < b2.point →
      b1.intersect_or_least b2 = b1 ∧ b1.intersect_or_greatest b2 = b2) ∧
    (b2.point < b1.point →
      b1.intersect_or_least b2 = b2 ∧ b1.intersect_or_greatest b2 = b1) ∧
    (b1.point = b2.point →
      ((b1.intersect_or_least b2 = Boundary.Include b1.point ↔
          (b1.is_closed = true ∧ b2.is_closed = true)) ∧
       (¬(b1.is_closed = true ∧ b2.is_closed = true) →
          b1.intersect_or_least b2 = Boundary.Exclude b1.point) ∧
       (b1.intersect_or_greatest b2 = Boundary.Include b1.point ↔
          (b1.is_closed = true ∧ b2.is_closed = true)) ∧
       (¬(b1.is_closed = true ∧ b2.is_closed = true) →
          b1.intersect_or_greatest b2 = Boundary.Exclude b1.point))) := by
  refine ⟨fun h => ?_, fun h => ?_, fun h => ?_⟩
  · constructor
    · rw [Boundary.intersect_or_least, if_neg h.ne, if_pos h]
    · rw [Boundary.intersect_or_greatest, if_neg h.ne,
        if_neg (not_lt.mpr h.le)]
  · constructor
    · rw [Boundary.intersect_or_least, if_neg h.ne',
        if_neg (not_lt.mpr h.le)]
    · rw [Boundary.intersect_or_greatest, if_neg h.ne', if_pos h]
  · rw [Boundary.intersect_or_least, Boundary.intersect_or_greatest,
      if_pos h, if_pos h]
    by_cases hc : (b1.is_closed && b2.is_closed) = true
    · obtain ⟨hb, ho⟩ := Bool.and_eq_true_iff.mp hc
      rw [if_pos hc]
      refine ⟨?_, ?_, ?_, ?_⟩ <;>
        simp [← Boundary.eq_Include_of_is_closed hb, hb, ho]
    · have hc' : ¬(b1.is_closed = true ∧ b2.is_closed = true) := by
        intro hand
        exact hc (Bool.and_eq_true_iff.mpr hand)
      rw [if_neg hc]
      refine ⟨?_, fun _ => rfl, ?_, fun _ => rfl⟩ <;> simp [hc']

/-- Witness for C1: exercises the lesser-point, greater-point and equal-point
branches at concrete boundaries. -/
theorem boundary_intersect_combinators_witness :
    ((Boundary.Exclude (0:ℤ)).intersect_or_least (Boundary.Include 1) =
        Boundary.Exclude 0 ∧
     (Boundary.Exclude (0:ℤ)).intersect_or_greatest (Boundary.Include 1) =
        Boundary.Include 1) ∧
    ((Boundary.Include (1:ℤ)).intersect_or_least (Boundary.Exclude 0) =
        Boundary.Exclude 0 ∧
     (Boundary.Include (1:ℤ)).intersect_or_greatest (Boundary.Exclude 0) =
        Boundary.Include 1) ∧
    (Boundary.Include (0:ℤ)).intersect_or_least (Boundary.Exclude 0) =
        Boundary.Exclude 0 :=
  ⟨(boundary_intersect_combinators _ _).1 (by decide),
   (boundary_intersect_combinators _ _).2.1 (by decide),
   ((boundary_intersect_combinators (Boundary.Include (0:ℤ))
      (Boundary.Exclude 0)).2.2 (by decide)).2.1 (by decide)⟩

/-- C2: for all boundaries `b1`, `b2` over a consistently ordered point type,
`union_or_least` returns the boundary with the lesser point, tag unchanged,
when the points differ; when the points are equal it returns `Include` at
that point iff at least one input is closed, and `Exclude` at that point iff
both are open.  `union_or_greatest` obeys the same equal-point rule but
returns the boundary with the greater point when the points differ. -/
theorem boundary_union_combinators {α : Type} [LinearOrder α]
    (b1 b2 : Boundary α) :
    (b1.point < b2.point →
      b1.union_or_least b2 = b1 ∧ b1.union_or_greatest b2 = b2) ∧
    (b2.point < b1.point →
      b1.union_or_least b2 = b2 ∧ b1.union_or_greatest b2 = b1) ∧
    (b1.point = b2.point →
      ((b1.union_or_least b2 = Boundary.Include b1.point ↔
          (b1.is_closed = true ∨ b2.is_closed = true)) ∧
       (b1.union_or_least b2 = Boundary.Exclude b1.point ↔
          (b1.is_open = true ∧ b2.is_open = true)) ∧
       (b1.union_or_greatest b2 = Boundary.Include b1.point ↔
          (b1.is_closed = true ∨ b2.is_closed = true)) ∧
       (b1.union_or_greatest b2 = Boundary.Exclude b1.point ↔
          (b1.is_open = true ∧ b2.is_open = true)))) := by
  refine ⟨fun h => ?_, fun h => ?_, fun h => ?_⟩
  · constructor
    · rw [Boundary.union_or_least, if_neg h.ne, if_pos h]
    · rw [Boundary.union_or_greatest, if_neg h.ne, if_neg (not_lt.mpr h.le)]
  · constructor
    · rw [Boundary.union_or_least, if_neg h.ne', if_neg (not_lt.mpr h.le)]
    · rw [Boundary.union_or_greatest, if_neg h.ne', if_pos h]
  · rw [Boundary.union_or_least, Boundary.union_or_greatest,
      if_pos h, if_pos h]
    cases b1 <;> cases b2 <;>
      simp_all [Boundary.point, Boundary.is_open, Boundary.is_closed]

/-- Witness for C2: exercises the lesser-point, greater-point and equal-point
branches at concrete boundaries. -/
theorem boundary_union_combinators_witness :
    ((Boundary.Exclude (0:ℤ)).union_or_least (Boundary.Include 1) =
        Boundary.Exclude 0 ∧
     (Boundary.Exclude (0:ℤ)).union_or_greatest (Boundary.Include 1) =
        Boundary.Include 1) ∧
    ((Boundary.Include (1:ℤ)).union_or_least (Boundary.Exclude 0) =
        Boundary.Exclude 0 ∧
     (Boundary.Include (1:ℤ)).union_or_greatest (Boundary.Exclude 0) =
        Boundary.Include 1) ∧
    (Boundary.Include (0:ℤ)).union_or_least (Boundary.Exclude 0) =
        Boundary.Include 0 :=
  ⟨(boundary_union_combinators _ _).1 (by decide),
   (boundary_union_combinators _ _).2.1 (by decide),
   (((boundary_union_combinators (Boundary.Include (0:ℤ))
      (Boundary.Exclude 0)).2.2 (by decide)).1).mpr (by decide)⟩

/-- C3 counterexample: take `a = b = right_open(2,2)`, a non-empty interval
with `a.left_point ≤ b.left_point` and `a.right_point = b.left_point` whose
right boundary is not closed.  The claim then demands `intersect` return
`none`, but the identity short-circuit of the source returns the interval
itself. -/
theorem intersect_touching_counterexample :
    (Interval.right_open (2:ℤ) 2).is_empty = false ∧
    (Interval.right_open (2:ℤ) 2).left_point ≤
      (Interval.right_open (2:ℤ) 2).left_point ∧
    (Interval.right_open (2:ℤ) 2).right_point =
      (Interval.right_open (2:ℤ) 2).left_point ∧
    ¬((Interval.right_open (2:ℤ) 2).right_bound.is_closed = true ∧
      (Interval.right_open (2:ℤ) 2).left_bound.is_closed = true) ∧
    (Interval.right_open (2:ℤ) 2).intersect (Interval.right_open 2 2) =
      some (Interval.right_open 2 2) := by decide

/-- C3 (amended): for all non-empty intervals `a ≠ b` with
`a.left_point ≤ b.left_point` and `a.right_point = b.left_point`,
`a.intersect b` is the single-point `Include` interval at the shared point
when both `a`'s right boundary and `b`'s left boundary are closed there, and
`none` otherwise.  (When `a = b` — forcing a degenerate self-touching
interval — the identity short-circuit returns `some a` instead.) -/
theorem intersect_touching {α : Type} [LinearOrder α] (a b : Interval α)
    (hea : a.is_empty = false) (heb : b.is_empty = false) (hne : a ≠ b)
    (hle : a.left_point ≤ b.left_point)
    (ht : a.right_point = b.left_point) :
    (a.right_bound.is_closed = true ∧ b.left_bound.is_closed = true →
       a.intersect b = some (Interval.closed b.left_point b.left_point)) ∧
    (¬(a.right_bound.is_closed = true ∧ b.left_bound.is_closed = true) →
       a.intersect b = none) := by
  have hbody : a.intersect b = Interval.intersect_sorted a b := by
    rw [Interval.intersect, hea, heb]
    simp [hne, hle]
  rw [hbody, Interval.intersect_sorted, if_neg (by rw [ht]; exact lt_irrefl _),
    if_pos ht]
  constructor
  · intro hc
    rw [if_pos (Bool.and_eq_true_iff.mpr hc), ht]
    simp [Interval.new, Interval.closed, lt_irrefl]
  · intro hc
    rw [if_neg (fun hand => hc (Bool.and_eq_true_iff.mp hand))]

/-- Witness for C3: the two touching examples of the claim, via the amended
theorem. -/
theorem intersect_touching_witness :
    (Interval.closed (1:ℤ) 2).intersect (Interval.closed 2 3) =
      some (Interval.closed 2 2) ∧
    (Interval.right_open (1:ℤ) 2).intersect (Interval.right_open 2 3) =
      none :=
  ⟨(intersect_touching (Interval.closed (1:ℤ) 2) (Interval.closed 2 3)
      (by decide) (by decide) (by decide) (by decide) (by decide)).1
      (by decide),
   (intersect_touching (Interval.right_open (1:ℤ) 2)
      (Interval.right_open 2 3) (by decide) (by decide) (by decide)
      (by decide) (by decide)).2 (by decide)⟩

/-- C4 (the code contradicts it): `union`, `minus`, `connect` and
`normalize` have `unimplemented!()` bodies in the source, so they raise the
corresponding fatal error (panic) on every input instead of terminating
normally, contrary to their own doc comments (`union` documents that `None`
is returned for disjoint operands). -/
theorem unfinished_operations_panic :
    (Interval.closed (1:ℤ) 2).union (Interval.closed 3 4) =
      Except.error RustPanic.unimplemented ∧
    (Interval.closed (1:ℤ) 2).minus (Interval.closed 3 4) =
      Except.error RustPanic.unimplemented ∧
    (Interval.closed (1:ℤ) 2).connect (Interval.closed 3 4) =
      Except.error RustPanic.unimplemented ∧
    Interval.normalize [Interval.closed (1:ℤ) 2] =
      Except.error RustPanic.unimplemented :=
  ⟨rfl, rfl, rfl, rfl⟩

/-- C5 counterexample: two boundaries at the same point with different tags
are not swapped by `Interval::new` (the swap tests only the strict point
order), so the two argument orders produce different intervals. -/
theorem new_swap_counterexample :
    Interval.new (Boundary.Include (0:ℤ)) (some (Boundary.Exclude 0)) ≠
      Interval.new (Boundary.Exclude (0:ℤ)) (some (Boundary.Include 0)) := by
  decide

/-- C5 (amended): for any two boundaries `l`, `r` whose points differ,
`Interval::new(l, Some(r))` and `Interval::new(r, Some(l))` produce the same
interval (the boundary with the lesser point becomes the start boundary in
both cases).  When the points coincide with different tags the two argument
orders produce intervals with the tags swapped. -/
theorem new_swap {α : Type} [LinearOrder α] (l r : Boundary α)
    (h : l.point ≠ r.point) :
    Interval.new l (some r) = Interval.new r (some l) := by
  simp only [Interval.new]
  rcases h.lt_or_lt with h' | h'
  · rw [if_neg (not_lt.mpr h'.le), if_pos h']
  · rw [if_pos h', if_neg (not_lt.mpr h'.le)]

/-- Witness for C5: the swap invariant at concrete out-of-order
boundaries. -/
theorem new_swap_witness :
    Interval.new (Boundary.Include (12:ℤ)) (some (Boundary.Include 16)) =
      Interval.new (Boundary.Include (16:ℤ)) (some (Boundary.Include 12)) :=
  new_swap _ _ (by decide)

/-- C6 counterexample: the derived ordering on `Boundary` compares the
variant before the point, so `Exclude(0)` compares greater than `Include(1)`
even though its point is less. -/
theorem boundary_order_counterexample :
    (0:ℤ) < 1 ∧
    Boundary.cmp (Boundary.Exclude (0:ℤ)) (Boundary.Include 1) =
      Ordering.gt := by decide

/-- C6 (amended): the derived `Boundary` ordering is primarily by variant —
any `Include` compares less than any `Exclude` — and compares points only
between boundaries of the same variant; two `Boundary` values are equal iff
both their points and their tags match. -/
theorem boundary_order_spec {α : Type} [LinearOrder α] :
    (∀ x y : α,
      Boundary.cmp (Boundary.Include x) (Boundary.Exclude y) =
        Ordering.lt) ∧
    (∀ x y : α,
      Boundary.cmp (Boundary.Exclude x) (Boundary.Include y) =
        Ordering.gt) ∧
    (∀ x y : α,
      Boundary.cmp (Boundary.Include x) (Boundary.Include y) =
        compare x y) ∧
    (∀ x y : α,
      Boundary.cmp (Boundary.Exclude x) (Boundary.Exclude y) =
        compare x y) ∧
    (∀ b1 b2 : Boundary α,
      b1 = b2 ↔ b1.point = b2.point ∧ b1.is_closed = b2.is_closed) :=
  ⟨fun _ _ => rfl, fun _ _ => rfl, fun _ _ => rfl, fun _ _ => rfl,
   Boundary.eq_iff⟩

/-- C7: every interval produced by `new` (hence by the four convenience
constructors, which call it) satisfies `left_point ≤ right_point`;
constructors given boundaries in reverse point order swap them rather than
failing; and `intersect` applied to intervals satisfying the invariant only
produces intervals satisfying it. -/
theorem interval_invariant {α : Type} [LinearOrder α] :
    (∀ (l : Boundary α) (e : Option (Boundary α)),
       (Interval.new l e).left_point ≤ (Interval.new l e).right_point) ∧
    (∀ x y : α,
       (Interval.openInt x y).left_point ≤
         (Interval.openInt x y).right_point ∧
       (Interval.closed x y).left_point ≤
         (Interval.closed x y).right_point ∧
       (Interval.left_open x y).left_point ≤
         (Interval.left_open x y).right_point ∧
       (Interval.right_open x y).left_point ≤
         (Interval.right_open x y).right_point) ∧
    (∀ l r : Boundary α, r.point < l.point →
       (Interval.new l (some r)).left_bound = r ∧
       (Interval.new l (some r)).right_bound = l) ∧
    (∀ a b c : Interval α, a.left_point ≤ a.right_point →
       b.left_point ≤ b.right_point → a.intersect b = some c →
       c.left_point ≤ c.right_point) := by
  have hsorted : ∀ a b c : Interval α,
      Interval.intersect_sorted a b = some c →
      c.left_point ≤ c.right_point := by
    intro a b c h
    rw [Interval.intersect_sorted] at h
    split at h
    · exact absurd h (by simp)
    · split at h
      · split at h
        · obtain rfl := Option.some_inj.mp h
          exact Interval.new_wf _ _
        · exact absurd h (by simp)
      · obtain rfl := Option.some_inj.mp h
        exact Interval.new_wf _ _
  refine ⟨fun l e => Interval.new_wf l e,
    fun x y => ⟨Interval.new_wf _ _, Interval.new_wf _ _,
      Interval.new_wf _ _, Interval.new_wf _ _⟩,
    fun l r h => ?_, fun a b c hwa hwb h => ?_⟩
  · constructor <;>
      simp [Interval.new, h, Interval.left_bound, Interval.right_bound]
  · rw [Interval.intersect] at h
    split at h
    · exact absurd h (by simp)
    · split at h
      · obtain rfl := Option.some_inj.mp h
        exact hwa
      · split at h
        · exact hsorted _ _ _ h
        · exact hsorted _ _ _ h

/-- Witness for C7: the swap branch and the `intersect` preservation at
concrete intervals. -/
theorem interval_invariant_witness :
    ((Interval.new (Boundary.Include (16:ℤ))
        (some (Boundary.Include 12))).left_bound = Boundary.Include 12 ∧
     (Interval.new (Boundary.Include (16:ℤ))
        (some (Boundary.Include 12))).right_bound = Boundary.Include 16) ∧
    (Interval.closed (2:ℤ) 3).left_point ≤
      (Interval.closed (2:ℤ) 3).right_point :=
  ⟨interval_invariant.2.2.1 _ _ (by decide),
   interval_invariant.2.2.2 (Interval.closed (1:ℤ) 3) (Interval.closed 2 4)
     (Interval.closed 2 3) (by decide) (by decide) (by decide)⟩

/-- C8: an interval is empty iff its two boundaries sit at the same point
and both are exclusive; `open(x,x)` is empty for all `x`, while
`left_open(x,x)`, `right_open(x,x)` and `closed(x,x)` are non-empty. -/
theorem is_empty_spec {α : Type} [LinearOrder α] :
    (∀ i : Interval α, i.is_empty = true ↔
       (i.left_point = i.right_point ∧
        i.left_bound.is_open = true ∧ i.right_bound.is_open = true)) ∧
    (∀ x : α,
       (Interval.openInt x x).is_empty = true ∧
       (Interval.left_open x x).is_empty = false ∧
       (Interval.right_open x x).is_empty = false ∧
       (Interval.closed x x).is_empty = false) := by
  constructor
  · intro i
    obtain ⟨s, e⟩ := i
    cases s <;> cases e <;>
      simp [Interval.is_empty, Interval.left_bound, Interval.right_bound,
        Interval.left_point, Interval.right_point, Boundary.is_open,
        Boundary.is_closed, Boundary.point]
  · intro x
    refine ⟨?_, ?_, ?_, ?_⟩ <;>
      simp [Interval.openInt, Interval.left_open, Interval.right_open,
        Interval.closed, Interval.new, Interval.is_empty, Boundary.point,
        Interval.left_bound, Interval.right_bound, Boundary.is_open,
        Boundary.is_closed, lt_irrefl]

/-- C9: `contains(p)` is true iff `p` lies strictly between the two endpoint
values, or `p` equals an endpoint value whose boundary there is inclusive;
in particular for `right_open(0, 2)` over the rationals, `0` and `1` are
contained while `2` and `-0.001` are not. -/
theorem contains_spec {α : Type} [LinearOrder α] :
    (∀ (i : Interval α) (p : α),
       i.contains p = true ↔
         ((i.left_point < p ∧ p < i.right_point) ∨
          (p = i.left_point ∧ i.left_bound.is_closed = true) ∨
          (p = i.right_point ∧ i.right_bound.is_closed = true))) ∧
    ((Interval.right_open (0:ℚ) 2).contains 0 = true ∧
     (Interval.right_open (0:ℚ) 2).contains 1 = true ∧
     (Interval.right_open (0:ℚ) 2).contains 2 = false ∧
     (Interval.right_open (0:ℚ) 2).contains (-1/1000) = false) := by
  constructor
  · intro i p
    simp only [Interval.contains, Bool.or_eq_true, Bool.and_eq_true,
      decide_eq_true_eq, gt_iff_lt]
    tauto
  · refine ⟨by decide, by decide, by decide, ?_⟩
    norm_num [Interval.contains, Interval.right_open, Interval.new,
      Boundary.point, Interval.left_point, Interval.right_point,
      Interval.left_bound, Interval.right_bound, Boundary.is_closed]

/-- C10 counterexample: intersecting the degenerate interval `[2,2]` with
`(2,3]` is not commutative — one order returns `none`, the other returns the
interval `(2,2]`. -/
theorem intersect_comm_counterexample :
    (Interval.closed (2:ℤ) 2).intersect (Interval.left_open 2 3) = none ∧
    (Interval.left_open (2:ℤ) 3).intersect (Interval.closed 2 2) =
      some (Interval.left_open 2 2) ∧
    (Interval.closed (2:ℤ) 2).intersect (Interval.left_open 2 3) ≠
      (Interval.left_open (2:ℤ) 3).intersect (Interval.closed 2 2) := by
  decide

/-- C10 (amended): `intersect` is commutative on non-degenerate intervals —
for all intervals `i`, `j` whose left point is strictly below their right
point, `i.intersect j = j.intersect i`.  Commutativity can fail when a
degenerate interval touches the other operand's left endpoint. -/
theorem intersect_comm {α : Type} [LinearOrder α] (i j : Interval α)
    (hi : i.left_point < i.right_point)
    (hj : j.left_point < j.right_point) :
    i.intersect j = j.intersect i := by
  by_cases hij : i = j
  · rw [hij]
  · have hei := Interval.is_empty_eq_false_of_lt hi
    have hej := Interval.is_empty_eq_false_of_lt hj
    rw [Interval.intersect, Interval.intersect, hei, hej]
    simp only [Bool.or_self, Bool.false_eq_true, if_false, if_neg hij,
      if_neg (Ne.symm hij)]
    rcases lt_trichotomy i.left_point j.left_point with h | h | h
    · rw [if_pos h.le, if_neg (not_le.mpr h)]
    · rw [if_pos h.le, if_pos h.ge]
      have hij' : j.left_point < i.right_point := by rw [← h]; exact hi
      have hji' : i.left_point < j.right_point := by rw [h]; exact hj
      rw [Interval.intersect_sorted, Interval.intersect_sorted,
        if_neg (not_lt.mpr hij'.le), if_neg hij'.ne',
        if_neg (not_lt.mpr hji'.le), if_neg hji'.ne',
        Boundary.intersect_or_greatest_comm, Boundary.intersect_or_least_comm]
    · rw [if_neg (not_le.mpr h), if_pos h.le]

/-- Witness for C10: commutativity at two concrete overlapping
non-degenerate intervals. -/
theorem intersect_comm_witness :
    (Interval.closed (0:ℤ) 2).intersect (Interval.left_open 1 3) =
      (Interval.left_open (1:ℤ) 3).intersect (Interval.closed 0 2) :=
  intersect_comm _ _ (by decide) (by decide)

end Rampeditor
